import Mathlib

/-!
Verification of the MP3-Player download/resolution subsystem.

This file gives a shallow embedding of the pure logic of
`backend/services/youtube_searcher.py`, `backend/services/youtube_downloader.py`,
`backend/services/youtube_dl.py`, `backend/services/youtube_dl backup.py` and
`backend/db/models.py`, and settles the spec claims about it.

Modelling conventions:
* Python `str` is modelled by Lean `String` (operations defined on `List Char`).
  Python string operations are modelled on the ASCII fragment:
  `str.lower` maps `A..Z` to `a..z` and is the identity elsewhere, and
  `unicodedata.normalize("NFKC", ...)` is modelled as the identity
  (NFKC is the identity on the ASCII range; every character surviving the
  `[^a-z0-9]` filters of the code is ASCII).
* External collaborators (the YouTube search backend, the media downloader,
  the audio decoder/encoder, the silence detector, checksumming) are modelled
  as explicit oracle parameters; an operation that can raise is an
  `Except`/`Option`-valued oracle.
* The MySQL database is modelled as an explicit record of tables (lists of
  rows) threaded through the functions that the code drives via
  `models.execute`.
-/

/-! ## Python string primitives -/

/-- Python `str.lower` on the ASCII fragment: maps `A..Z` to `a..z`,
identity on every other character. -/
def lowerChar (c : Char) : Char :=
  if 65 ≤ c.toNat ∧ c.toNat ≤ 90 then Char.ofNat (c.toNat + 32) else c

def lowerL (l : List Char) : List Char := l.map lowerChar

/-- Python `str.lower` (ASCII model). -/
def pyLower (s : String) : String := ⟨lowerL s.data⟩

/-- Python whitespace (ASCII fragment): space, tab, LF, CR, VT, FF. -/
def isWsChar (c : Char) : Bool :=
  c.toNat == 32 || c.toNat == 9 || c.toNat == 10 || c.toNat == 13 ||
  c.toNat == 11 || c.toNat == 12

def dropWsL (l : List Char) : List Char := l.dropWhile isWsChar

/-- Python `str.strip()`: drop whitespace from both ends. -/
def stripL (l : List Char) : List Char :=
  (dropWsL ((dropWsL l).reverse)).reverse

def pyStrip (s : String) : String := ⟨stripL s.data⟩

/-- Helper for `str.split()`: accumulate the current (reversed) token. -/
def splitWsGo : List Char → List Char → List (List Char)
  | [], cur => if cur.isEmpty then [] else [cur.reverse]
  | c :: cs, cur =>
    if isWsChar c then
      if cur.isEmpty then splitWsGo cs [] else cur.reverse :: splitWsGo cs []
    else splitWsGo cs (c :: cur)

/-- Python `str.split()` with no argument: split on whitespace runs,
dropping empty tokens. -/
def splitWsL (l : List Char) : List (List Char) := splitWsGo l []

def pyTokens (s : String) : List String := (splitWsL s.data).map fun l => ⟨l⟩

/-- Does `p` occur at the start of `l`? -/
def startsL : List Char → List Char → Bool
  | [], _ => true
  | _ :: _, [] => false
  | a :: as, b :: bs => a == b && startsL as bs

/-- Does `n` occur as a contiguous substring of `l`?  Models Python `n in l`. -/
def hasSubL (n : List Char) : List Char → Bool
  | [] => n.isEmpty
  | c :: cs => startsL n (c :: cs) || hasSubL n cs

/-- Python `needle in hay` on strings. -/
def inStr (needle hay : String) : Bool := hasSubL needle.data hay.data

/-- Helper for Python `str.split(",")`: keeps empty pieces. -/
def splitCommaGo : List Char → List Char → List (List Char)
  | [], cur => [cur.reverse]
  | c :: cs, cur =>
    if c == ',' then cur.reverse :: splitCommaGo cs [] else splitCommaGo cs (c :: cur)

/-- Python `s.split(",")` (keeps empty pieces; `"".split(",") == [""]`). -/
def splitComma (s : String) : List String := (splitCommaGo s.data []).map fun l => ⟨l⟩

/-! ## `normalize_name` (backend/services/youtube_searcher.py, lines 16-21)

```
def normalize_name(s: str) -> str:
    s = unicodedata.normalize("NFKC", s.lower())
    s = re.sub(r"(?i)\b(vevo|topic|official|music|channel)\b", "", s)
    s = re.sub(r"[^a-z0-9]", "", s)
    return s.strip()
```
NFKC is modelled as the identity (it is the identity on ASCII). -/

/-- Python regex `\w` on the ASCII fragment: letters, digits, underscore. -/
def wordCharB (c : Char) : Bool :=
  (65 ≤ c.toNat && c.toNat ≤ 90) || (97 ≤ c.toNat && c.toNat ≤ 122) ||
  (48 ≤ c.toNat && c.toNat ≤ 57) || c == '_'

/-- The alternation of the marketing-token regex, as char lists. -/
def bannedWordsL : List (List Char) :=
  ["vevo".data, "topic".data, "official".data, "music".data, "channel".data]

/-- Case-insensitive literal match of `w` (given lowercase) at the head of the
text; returns the rest of the text after the match. -/
def matchWordCI : List Char → List Char → Option (List Char)
  | [], rest => some rest
  | _ :: _, [] => none
  | w :: ws, c :: cs => if lowerChar c == w then matchWordCI ws cs else none

/-- Is the head of the rest a non-word character (or the end of the string)?
This is the trailing `\b` check of the regex. -/
def headNotWord : List Char → Bool
  | [] => true
  | c :: _ => !(wordCharB c)

/-- Try each alternative of the banned-word regex at the current position.
The leading `\b` is checked by the caller; the trailing `\b` here. -/
def tryBanned : List (List Char) → List Char → Option (List Char)
  | [], _ => none
  | w :: ws, text =>
    match matchWordCI w text with
    | some rest => if headNotWord rest then some rest else tryBanned ws text
    | none => tryBanned ws text

/-- `re.sub(r"(?i)\b(vevo|topic|official|music|channel)\b", "", ·)`:
left-to-right scan removing non-overlapping matches.  `prevW` records whether
the character just before the scan position (in the original string) is a word
character — the leading `\b` holds iff it is not (every alternative starts with
a letter).  Fuel is the input length; each step consumes at least one
character, so the fuel never runs out on `removeBannedL`'s call. -/
def removeBannedFuel : Nat → Bool → List Char → List Char
  | 0, _, l => l
  | _ + 1, _, [] => []
  | n + 1, prevW, c :: cs =>
    if prevW then c :: removeBannedFuel n (wordCharB c) cs
    else
      match tryBanned bannedWordsL (c :: cs) with
      | some rest => removeBannedFuel n true rest
      | none => c :: removeBannedFuel n (wordCharB c) cs

def removeBannedL (l : List Char) : List Char := removeBannedFuel l.length false l

/-- The `[^a-z0-9]` filter: keep only lowercase ASCII letters and digits. -/
def isAlnumLower (c : Char) : Bool :=
  (97 ≤ c.toNat && c.toNat ≤ 122) || (48 ≤ c.toNat && c.toNat ≤ 57)

def filterAlnum (l : List Char) : List Char := l.filter isAlnumLower

/-- `normalize_name` of `youtube_searcher.py` (NFKC modelled as identity). -/
def normalize_name (s : String) : String :=
  ⟨stripL (filterAlnum (removeBannedL (lowerL s.data)))⟩

/-- `normalize_artist_name` of `youtube_downloader.py` (lines 39-43): same
banned-token regex applied to the raw name, then `[^a-z0-9]` on the lowered
result; no NFKC, no strip. -/
def normalize_artist_name (s : String) : String :=
  ⟨filterAlnum (lowerL (removeBannedL s.data))⟩

/-! ## The candidate resolver (backend/services/youtube_searcher.py, lines 80-148)

A search result entry as read by the code via `entry.get(...)`.  A missing
`webpage_url`/`id` (Python `None`) is modelled as the empty string, which the
code treats identically through its `if not url` / truthiness checks (the one
exception, `e["webpage_url"]` in `search_best_youtube`, would raise on a
missing key; the claims below never exercise that case).  The YouTube backend
(`ydl.extract_info("ytsearchK:...")`) is an oracle mapping the query string to
the entry list; a query failing at the network layer is modelled by an empty
result list, which the code's `except` branch treats the same way (skip).
`find_or_cache_artist_channel` (a DB-and-subprocess collaborator) is modelled
by the `channelUrl` parameter, its returned value. -/

structure SearchEntry where
  title : String
  description : String
  uploader : String
  webpage_url : String
  ytid : String
deriving DecidableEq

/-- `ignore_phrases = ("music video", "official video")`. -/
def ignorePhrases : List String := ["music video", "official video"]

/-- `prefer_phrases = ("lyric", "official audio")`. -/
def preferPhrases : List String := ["lyric", "official audio"]

/-- "Skip music videos": the ignore-phrase test on the lowered title and
description of an entry. -/
def bannedHit (e : SearchEntry) : Bool :=
  ignorePhrases.any fun p =>
    inStr p (pyLower e.title) || inStr p (pyLower e.description)

/-- The score assigned to a non-skipped entry (`uploader` is read by the code
but never used).  `best_score` starts at `-1`, so scores are `Int`s. -/
def entryScore (name artist : String) (e : SearchEntry) : Int :=
  let t := pyLower e.title
  (if preferPhrases.any fun p => inStr p t then 3 else 0)
  + (if inStr (pyLower artist) t then 2 else 0)
  + (if inStr (pyLower name) t then 2 else 0)

/-- The inner `for entry in info.get("entries", [])` loop: fold the
`(best_url, best_score)` accumulator over one query's entries. -/
def scanEntries (name artist : String) :
    Option String × Int → List SearchEntry → Option String × Int
  | acc, [] => acc
  | acc, e :: es =>
    if e.webpage_url = "" then scanEntries name artist acc es
    else if bannedHit e then scanEntries name artist acc es
    else
      let sc := entryScore name artist e
      if acc.2 < sc then scanEntries name artist (some e.webpage_url, sc) es
      else scanEntries name artist acc es

/-- The outer `for q in queries` loop with its `if best_url: break`. -/
def searchLoop (name artist : String) (backend : String → List SearchEntry) :
    Option String × Int → List String → Option String × Int
  | acc, [] => acc
  | acc, q :: qs =>
    let acc2 := scanEntries name artist acc (backend q)
    match acc2.1 with
    | some u => (some u, acc2.2)
    | none => searchLoop name artist backend acc2 qs

/-- `search_youtube_for_song(name, artist)`; `channelUrl` stands for the value
of `find_or_cache_artist_channel(artist)` ("" when none was found). -/
def search_youtube_for_song (name artist channelUrl : String)
    (backend : String → List SearchEntry) : Option String × String :=
  if name = "" then (none, "")
  else
    let base := [name ++ " " ++ artist ++ " lyrics",
                 name ++ " " ++ artist ++ " official audio",
                 name ++ " " ++ artist]
    let queries :=
      (if channelUrl ≠ "" then base.map fun q => channelUrl ++ " " ++ q else [])
      ++ base
    ((searchLoop name artist backend (none, -1) queries).1, channelUrl)

/-- The combined title+description+uploader text of a candidate, lowered —
the `fields = " ".join([title, desc, uploader])` form the backup variant
matches against. -/
def combinedText (e : SearchEntry) : String :=
  pyLower e.title ++ " " ++ pyLower e.description ++ " " ++ pyLower e.uploader

/-! ## `search_best_youtube` (backend/services/youtube_downloader.py, lines 45-66) -/

/-- `normalize_text` of `youtube_downloader.py` (NFKC modelled as identity). -/
def normalize_text (s : String) : String := pyStrip (pyLower s)

/-- The track dict as consumed by `search_best_youtube`
(`track.get("name","")`, `track.get("artist","")`). -/
structure SbTrack where
  name : String
  artist : String

/-- Inner entry loop of `search_best_youtube`: skip candidates with a banned
phrase in their normalized title/description, accept the first whose
normalized title contains every whitespace token of the lowered track name. -/
def sbScan (tokens : List String) : List SearchEntry → Option String
  | [] => none
  | e :: es =>
    if ignorePhrases.any (fun b =>
        inStr b (normalize_text e.title) || inStr b (normalize_text e.description))
    then sbScan tokens es
    else if tokens.all (fun w => inStr w (normalize_text e.title)) then
      some e.webpage_url
    else sbScan tokens es

/-- Outer query loop of `search_best_youtube`; `chan` is prefixed to each
query when non-empty (`if chan: q = f"{chan} {q}"`).  A query failing at the
network layer is modelled by an empty backend result (the code's `except`
skips to the next query). -/
def sbLoop (tokens : List String) (chan : String)
    (backend : String → List SearchEntry) : List String → Option String
  | [] => none
  | q :: qs =>
    match sbScan tokens (backend (if chan = "" then q else chan ++ " " ++ q)) with
    | some u => some u
    | none => sbLoop tokens chan backend qs

/-- `search_best_youtube(track)`; `chan` stands for the value of
`find_or_cache_artist_channel(artist)`. -/
def search_best_youtube (track : SbTrack) (chan : String)
    (backend : String → List SearchEntry) : Option String :=
  let name := pyStrip track.name
  let artist := pyStrip track.artist
  if name = "" then none
  else
    sbLoop (pyTokens (pyLower name)) chan backend
      [name ++ " " ++ artist ++ " lyrics",
       name ++ " " ++ artist ++ " official audio",
       name ++ " " ++ artist]

/-! ## `trim_silence_m4a`

Two variants exist in the source:
* `youtube_dl.py` lines 35-74: exports the trimmed audio to a
  `NamedTemporaryFile` and atomically `replace`s the original (and skips the
  export when the nonsilent span is shorter than 500 ms);
* `youtube_downloader.py` lines 16-29: exports directly onto `file_path`
  (pydub's `export` opens its target with mode `wb+`, truncating it, before
  running the encoder, so an encoder failure leaves the file truncated),
  with no minimum-span check.

The pydub collaborators are oracles: `decode` is `AudioSegment.from_file`
(`none` = decode raises), `detect` is `silence.detect_nonsilent` with the
code's thresholds, `audioLen` is `len(audio)` in ms, `slice` is
`audio[start:end]`, and `encode` is `export(...)` (`none` = export raises).
File contents are byte lists; each function returns the returned path
together with the resulting content of `file_path`. -/

structure TrimEnv where
  decode : List Nat → Option Nat
  detect : Nat → List (Nat × Nat)
  audioLen : Nat → Nat
  slice : Nat → Nat → Nat → Nat
  encode : Nat → Option (List Nat)

/-- `start_trim = nonsilent_ranges[0][0]`. -/
def rangesStart (r0 : Nat × Nat) : Nat := r0.1

/-- `end_trim = nonsilent_ranges[-1][1]`. -/
def rangesEnd (r0 : Nat × Nat) (rs : List (Nat × Nat)) : Nat :=
  (rs.getLastD r0).2

/-- `youtube_dl.py` trim, once ranges `r0 :: rs` were detected: bail out when
the span is under 500 ms, otherwise export `audio[start:end]` to a temp file
and atomically replace the original (so a failing export leaves the original
content). -/
def trimSpan (env : TrimEnv) (path : String) (content : List Nat)
    (audio : Nat) (r0 : Nat × Nat) (rs : List (Nat × Nat)) :
    String × List Nat :=
  if rangesEnd r0 rs - rangesStart r0 < 500 then (path, content)
  else
    match env.encode (env.slice audio (rangesStart r0) (rangesEnd r0 rs)) with
    | none => (path, content)
    | some fresh => (path, fresh)

/-- `trim_silence_m4a` of `youtube_dl.py` (temp-file swap variant). -/
def trim_silence_m4a (env : TrimEnv) (path : String) (content : List Nat) :
    String × List Nat :=
  match env.decode content with
  | none => (path, content)
  | some audio =>
    match env.detect audio with
    | [] => (path, content)
    | r0 :: rs => trimSpan env path content audio r0 rs

/-- `youtube_downloader.py` trim, once ranges `r0 :: rs` were detected: no
minimum-span check; export directly onto `file_path`, whose content a failing
export leaves truncated. -/
def trimSpanInPlace (env : TrimEnv) (path : String) (audio : Nat)
    (r0 : Nat × Nat) (rs : List (Nat × Nat)) : String × List Nat :=
  match env.encode (env.slice audio (rangesStart r0) (rangesEnd r0 rs)) with
  | none => (path, [])
  | some fresh => (path, fresh)

/-- `trim_silence_m4a` of `youtube_downloader.py` (in-place export variant). -/
def trim_silence_m4a_inplace (env : TrimEnv) (path : String)
    (content : List Nat) : String × List Nat :=
  match env.decode content with
  | none => (path, content)
  | some audio =>
    match env.detect audio with
    | [] => (path, content)
    | r0 :: rs => trimSpanInPlace env path audio r0 rs

/-! ## Database model (backend/db/models.py and youtube_dl.py lines 206-252)

The MySQL database is modelled as lists of rows.  No `CREATE TABLE`
statement exists anywhere in the repository, so the schema itself is taken
from the spec where needed (see the doc comments below).  `models.execute`
with a plain `INSERT` appends a row; note that a plain `INSERT` (unlike the
`INSERT IGNORE` / `ON DUPLICATE KEY UPDATE` forms used elsewhere in
`models.py`) is never a silent no-op under any schema — with a uniqueness
constraint it raises instead. -/

structure TrackRow where
  id : Nat
  spotify_id : String
  name : String
  artist : String
  album : String
  year : String
  duration_ms : String
  checksum : String
deriving DecidableEq

structure DownloadRow where
  user_id : Nat
  track_id : Nat
  youtube_id : String
  filepath : String
  bitrate : Nat
  filesize_bytes : Nat
deriving DecidableEq

structure HistoryRow where
  user_id : Nat
  track_id : Nat
  action : String
deriving DecidableEq

structure Db where
  tracks : List TrackRow
  downloads : List DownloadRow
  history : List HistoryRow
  nextTrackId : Nat
deriving DecidableEq

/-- The `track_data` dict built by `record_download`. -/
structure TrackData where
  spotify_id : String
  name : String
  artist : String
  album : String
  year : String
  duration_ms : String
deriving DecidableEq

/-- The CSV row dict consumed by `youtube_dl.py` (`track.get(...)`;
a missing key is the empty string). -/
structure CsvTrack where
  name : String
  artists : String
  album : String
  album_release_year : String
  track_number : String
  disc_number : String
  isrc : String
  added_at : String
  spotify_id : String
  duration_ms : String
deriving DecidableEq

def trackDataOf (t : CsvTrack) (spotify_id : String) : TrackData :=
  { spotify_id := spotify_id
    name := t.name
    artist := t.artists
    album := t.album
    year := t.album_release_year
    duration_ms := t.duration_ms }

/-- Modelled from the spec: `models.get_or_create_track` is called by
`record_download` (`youtube_dl.py` line 225) but is absent from
`backend/db/models.py`; spec §6 specifies it as the idempotent
"get-or-create catalog track by external id" operation — return the existing
row's id when one matches the external id, otherwise insert a fresh row. -/
def get_or_create_track (db : Db) (td : TrackData) : Nat × Db :=
  match db.tracks.find? (fun r => r.spotify_id == td.spotify_id) with
  | some r => (r.id, db)
  | none =>
    (db.nextTrackId,
     { db with
        tracks := db.tracks ++
          [{ id := db.nextTrackId
             spotify_id := td.spotify_id
             name := td.name
             artist := td.artist
             album := td.album
             year := td.year
             duration_ms := td.duration_ms
             checksum := "" }]
        nextTrackId := db.nextTrackId + 1 })

/-- `models.execute("UPDATE tracks SET checksum=%s WHERE id=%s", ...)`. -/
def set_track_checksum (db : Db) (cs : String) (tid : Nat) : Db :=
  { db with
      tracks := db.tracks.map fun r =>
        if r.id == tid then { r with checksum := cs } else r }

/-- The fields `record_download` reads from `youtube_info`
(`info.get("id")`, `info.get("filesize_approx")`, `info.get("filesize")`). -/
structure YtInfo where
  ytid : String
  filesize_approx : Option Nat
  filesize : Option Nat
deriving DecidableEq

/-- Python `a or b` truthiness on optional numbers (`0` and `None` falsy). -/
def orNat (a : Option Nat) (b : Nat) : Nat :=
  match a with
  | some n => if n = 0 then b else n
  | none => b

/-- `filesize_bytes = youtube_info.get("filesize_approx") or
youtube_info.get("filesize") or 0`.  The float `round(bytes/1e6, 2)` for the
`filesize_mb` column is not modelled; the raw byte count is stored. -/
def filesizeBytes (info : YtInfo) : Nat :=
  orNat info.filesize_approx (orNat info.filesize 0)

/-- `record_download` of `youtube_dl.py` (lines 206-252): get-or-create the
track row, update its checksum, plainly `INSERT` a downloads row, and
plainly `INSERT` a user_history row. -/
def record_download (db : Db) (user_id : Nat) (track : CsvTrack)
    (info : YtInfo) (filepath checksum spotify_id : String) : Db :=
  let p := get_or_create_track db (trackDataOf track spotify_id)
  let db2 : Db := set_track_checksum p.2 checksum p.1
  let db3 : Db := { db2 with
    downloads := db2.downloads ++
      [{ user_id := user_id
         track_id := p.1
         youtube_id := info.ytid
         filepath := filepath
         bitrate := 192
         filesize_bytes := filesizeBytes info }] }
  { db3 with
    history := db3.history ++
      [{ user_id := user_id, track_id := p.1, action := "downloaded" }] }

/-- Number of `downloads` rows for one `(user, track)` pair. -/
def countDownloads (db : Db) (uid tid : Nat) : Nat :=
  (db.downloads.filter fun d => d.user_id == uid && d.track_id == tid).length

/-- A concrete CSV track used in closed statements. -/
def sampleTrack : CsvTrack :=
  { name := "yellow"
    artists := "coldplay"
    album := "parachutes"
    album_release_year := "2000"
    track_number := "5"
    disc_number := "1"
    isrc := ""
    added_at := ""
    spotify_id := "sp1"
    duration_ms := "266000" }

/-! ## Channel cache (backend/db/models.py, lines 211-233)

`set_artist_channel` runs
`INSERT INTO youtube_channels ... ON DUPLICATE KEY UPDATE channel_url = ...,
last_checked = ...`; `get_artist_channel` selects `channel_url` by
`artist_name` and returns `""` unless the row exists with a truthy value.
Modelled from the spec: the `youtube_channels` schema is not in the
repository; per spec §3 ("Invariant: at most one entry per normalized artist
key (upsert semantics)") the duplicate key is `artist_name`, so the statement
updates the row with the same `artist_name` if present and inserts
otherwise. -/

structure ChannelRow where
  artist_name : String
  channel_url : String
  last_checked : Nat
deriving DecidableEq

/-- `get_artist_channel`: first row matching the artist name; `""` when the
row is absent or its `channel_url` is falsy. -/
def get_artist_channel (rows : List ChannelRow) (artist : String) : String :=
  match rows.find? (fun r => r.artist_name == artist) with
  | some r => if r.channel_url = "" then "" else r.channel_url
  | none => ""

/-- `set_artist_channel`: upsert keyed on `artist_name` (the non-key columns
`channel_url` and `last_checked` are overwritten, `artist_name` kept). -/
def set_artist_channel (rows : List ChannelRow) (artist url : String)
    (now : Nat) : List ChannelRow :=
  match rows with
  | [] => [⟨artist, url, now⟩]
  | r :: rs =>
    if r.artist_name == artist then ⟨artist, url, now⟩ :: rs
    else r :: set_artist_channel rs artist url now

/-- Rows carrying a given artist key. -/
def countKey (rows : List ChannelRow) (k : String) : Nat :=
  (rows.filter fun r => r.artist_name == k).length

/-! ## `download_and_tag` (backend/services/youtube_dl.py, lines 92-203)

Oracles: `search` is `ydl.extract_info("ytsearch3:q", download=False)` —
NOT wrapped in try/except in this variant (line 132), so a search failure
propagates out of `download_and_tag`; `download` is
`ydl.extract_info(url, download=True)` — also unguarded (line 149).
The filename dance (`prepare_filename` / `with_suffix` / conditional
`rename`) affects only the filesystem; the function's returned path is
always `output_dir / f"{name}.m4a"`, modelled directly.  The in-place
`trim_silence_m4a` call (see `trim_silence_m4a`) and the tag write
(try/except, swallowed) do not influence the returned value; the post-trim
file content enters only through the `checksum` oracle.  A raising
`record_download` (caught, line 195-196) is modelled by `recordFails`; its
partial database effects are irrelevant to the claims and the database is
left unchanged in that case. -/

structure DlEnv where
  search : String → Except String (List SearchEntry)
  download : String → Except String YtInfo
  checksum : String → String
  tagFails : Bool
  recordFails : Bool

/-- The acceptance test of `youtube_dl.py` (lines 143-145):
`(name.lower() in title and any(a.lower() in title for a in
artists.split(","))) or any(a.lower() in uploader for a in
artists.split(","))`, with `title`/`uploader` pre-lowered. -/
def dlMatch (name artists : String) (e : SearchEntry) : Bool :=
  (inStr (pyLower name) (pyLower e.title)
    && (splitComma artists).any fun a => inStr (pyLower a) (pyLower e.title))
  || (splitComma artists).any fun a => inStr (pyLower a) (pyLower e.uploader)

/-- Inner entry loop of `download_and_tag`: skip entries without
`webpage_url`/`id`, and on the first match download, post-process and
record, returning the final path. -/
def dlScan (track : CsvTrack) (name artists outputDir : String)
    (userId : Nat) (env : DlEnv) (db : Db) :
    List SearchEntry → Except String (Option String × Db)
  | [] => .ok (none, db)
  | e :: es =>
    if e.webpage_url = "" ∨ e.ytid = "" then
      dlScan track name artists outputDir userId env db es
    else if dlMatch name artists e then
      match env.download e.webpage_url with
      | .error msg => .error msg
      | .ok info =>
        let finalPath := outputDir ++ "/" ++ name ++ ".m4a"
        let cs := env.checksum finalPath
        .ok (some finalPath,
          if env.recordFails then db
          else record_download db userId track info finalPath cs
            (pyStrip track.spotify_id))
    else dlScan track name artists outputDir userId env db es

/-- Outer query loop of `download_and_tag`. -/
def dlLoop (track : CsvTrack) (name artists outputDir : String)
    (userId : Nat) (env : DlEnv) (db : Db) :
    List String → Except String (Option String × Db)
  | [] => .ok (none, db)
  | q :: qs =>
    match env.search q with
    | .error msg => .error msg
    | .ok entries =>
      match dlScan track name artists outputDir userId env db entries with
      | .error m => .error m
      | .ok (some p, db2) => .ok (some p, db2)
      | .ok (none, db2) =>
        dlLoop track name artists outputDir userId env db2 qs

/-- `download_and_tag` of `youtube_dl.py`.  Note the guard (lines 105-107):
a missing name OR a missing artist makes the function log
"Skipping track with missing name/artist" and return `None` without issuing
any query. -/
def download_and_tag (track : CsvTrack) (outputDir : String) (userId : Nat)
    (env : DlEnv) (db : Db) : Except String (Option String × Db) :=
  let name := pyStrip track.name
  let artists := pyStrip track.artists
  if name = "" ∨ artists = "" then .ok (none, db)
  else
    dlLoop track name artists outputDir userId env db
      [name ++ " " ++ artists ++ " lyrics", name ++ " " ++ artists]

/-- Forget the database component of a pipeline outcome. -/
def resultPath (r : Except String (Option String × Db)) :
    Except String (Option String) :=
  r.map Prod.fst

/-! ## `find_youtube_match` (backend/services/youtube_dl backup.py, lines 360-400)

The backup variant's resolver: title-only queries first
(`[f"{name} lyrics", f"{name}"]`), artist-qualified queries appended only
when an artist is known; a search failure is caught and the next query
tried.  Acceptance requires every title token in the combined
title+description+uploader fields AND some artist token in them — with no
artist, `artist_match` is literally `False`. -/

/-- One separator of `re.split(r",|&|feat\.|ft\.|featuring", ...)` at the
head of the text, with its length (the alternation is tried in order;
no alternative is a prefix of another that could match instead). -/
def sepLen (l : List Char) : Option Nat :=
  if startsL [','] l then some 1
  else if startsL ['&'] l then some 1
  else if startsL "feat.".data l then some 5
  else if startsL "ft.".data l then some 3
  else if startsL "featuring".data l then some 9
  else none

/-- The split itself; fuel is the input length (every separator consumes at
least one character). -/
def splitSepsGo : Nat → List Char → List Char → List (List Char)
  | 0, l, cur => [cur.reverse ++ l]
  | _ + 1, [], cur => [cur.reverse]
  | n + 1, c :: cs, cur =>
    match sepLen (c :: cs) with
    | some k => cur.reverse :: splitSepsGo n ((c :: cs).drop k) []
    | none => splitSepsGo n cs (c :: cur)

/-- `[a.strip().lower() for a in re.split(r",|&|feat\.|ft\.|featuring",
artists) if a.strip()]`. -/
def artistTokens (artists : String) : List String :=
  (splitSepsGo artists.data.length artists.data []).filterMap fun p =>
    if (stripL p).isEmpty then none else some ⟨lowerL (stripL p)⟩

/-- Inner entry loop of `find_youtube_match`: accept the first entry whose
combined fields contain every title token and some artist token. -/
def fymScan (nameToks artistToks : List String) :
    List SearchEntry → Option String
  | [] => none
  | e :: es =>
    if (nameToks.all fun w => inStr w (combinedText e))
        && (artistToks.any fun a => inStr a (combinedText e)) then
      some e.webpage_url
    else fymScan nameToks artistToks es

/-- Outer query loop of `find_youtube_match`; here the search call is
guarded by try/except, so a failing query is skipped. -/
def fymLoop (nameToks artistToks : List String)
    (backend : String → Except String (List SearchEntry)) :
    List String → Option String
  | [] => none
  | q :: qs =>
    match backend q with
    | .error _ => fymLoop nameToks artistToks backend qs
    | .ok entries =>
      match fymScan nameToks artistToks entries with
      | some u => some u
      | none => fymLoop nameToks artistToks backend qs

/-- `find_youtube_match` of `youtube_dl backup.py`. -/
def find_youtube_match (track : CsvTrack)
    (backend : String → Except String (List SearchEntry)) : Option String :=
  let name := pyStrip track.name
  let artists := pyStrip track.artists
  if name = "" then none
  else
    fymLoop (pyTokens (pyLower name)) (artistTokens artists) backend
      ([name ++ " lyrics", name]
        ++ (if artists ≠ "" then
              [name ++ " " ++ artists ++ " lyrics", name ++ " " ++ artists]
            else []))

/-! ## `process_tracks` (backend/services/youtube_dl.py, lines 258-281)

The thread pool submits `download_and_tag` for every track and collects
futures with `as_completed`; completion order is modelled as submission
order.  The outcome of one item's future (`future.result()`) is abstracted
as the `run` oracle: `.error` is a raising future (caught by the
`except` branch and only logged), `.ok none` a falsy result, `.ok (some p)`
a downloaded path (appended to `downloaded`).  The function returns the
`downloaded` list — nothing else. -/

def processGo : List CsvTrack → (CsvTrack → Except String (Option String)) →
    List String → List String
  | [], _, acc => acc.reverse
  | t :: ts, run, acc =>
    match run t with
    | .error _ => processGo ts run acc
    | .ok none => processGo ts run acc
    | .ok (some p) => processGo ts run (p :: acc)

def process_tracks (tracks : List CsvTrack)
    (run : CsvTrack → Except String (Option String)) : List String :=
  processGo tracks run []

/-- Number of items whose pipeline returned a path. -/
def succeededCount (ts : List CsvTrack)
    (run : CsvTrack → Except String (Option String)) : Nat :=
  (ts.filter fun t =>
    match run t with
    | .ok (some _) => true
    | _ => false).length

/-- The per-item failure report the claim says `process_tracks` returns:
every item whose future raised, with its reason. -/
def failedReport (ts : List CsvTrack)
    (run : CsvTrack → Except String (Option String)) :
    List (CsvTrack × String) :=
  ts.filterMap fun t =>
    match run t with
    | .error m => some (t, m)
    | _ => none

/-- The claim, as stated: the value returned by `process_tracks` carries a
complete per-item report — the succeeded count together with the
(item, reason) list for every failed item — i.e. some reading of the return
value yields that report. -/
def processTracksReturnsReport : Prop :=
  ∃ rep : List String → Nat × List (CsvTrack × String),
    ∀ ts run, rep (process_tracks ts run)
      = (succeededCount ts run, failedReport ts run)

/-! ### Substring lemmas -/

theorem hasSubL_nil_left (l : List Char) : hasSubL [] l = true := by
  cases l <;> simp [hasSubL, startsL, List.isEmpty]

theorem startsL_append {n p : List Char} (t : List Char)
    (h : startsL n p = true) : startsL n (p ++ t) = true := by
  induction n generalizing p with
  | nil => simp [startsL]
  | cons a as ih =>
    cases p with
    | nil => simp [startsL] at h
    | cons b bs =>
      simp only [startsL, Bool.and_eq_true] at h ⊢
      exact ⟨h.1, ih h.2⟩

theorem hasSubL_append_left {n p : List Char} (t : List Char)
    (h : hasSubL n p = true) : hasSubL n (p ++ t) = true := by
  induction p with
  | nil =>
    simp only [hasSubL, List.isEmpty_iff] at h
    subst h
    simpa using hasSubL_nil_left t
  | cons c cs ih =>
    simp only [hasSubL, Bool.or_eq_true] at h
    rcases h with h | h
    · have := startsL_append (p := c :: cs) t h
      simp only [List.cons_append, hasSubL, Bool.or_eq_true]
      exact Or.inl (by simpa using this)
    · simp only [List.cons_append, hasSubL, Bool.or_eq_true]
      exact Or.inr (ih h)

theorem hasSubL_append_right {n t : List Char} (p : List Char)
    (h : hasSubL n t = true) : hasSubL n (p ++ t) = true := by
  induction p with
  | nil => simpa using h
  | cons c cs ih =>
    simp only [List.cons_append, hasSubL, Bool.or_eq_true]
    exact Or.inr ih

/-- `stripL l` sits inside `l`: `l = pre ++ stripL l ++ post`. -/
theorem stripL_decomp (l : List Char) :
    ∃ p t, l = p ++ stripL l ++ t := by
  refine ⟨l.takeWhile isWsChar,
    ((dropWsL l).reverse.takeWhile isWsChar).reverse, ?_⟩
  have h1 : l.takeWhile isWsChar ++ dropWsL l = l :=
    List.takeWhile_append_dropWhile isWsChar l
  have h2 : (dropWsL l).reverse.takeWhile isWsChar ++ dropWsL (dropWsL l).reverse
      = (dropWsL l).reverse :=
    List.takeWhile_append_dropWhile isWsChar (dropWsL l).reverse
  have h3 : dropWsL l
      = stripL l ++ ((dropWsL l).reverse.takeWhile isWsChar).reverse := by
    have := congrArg List.reverse h2
    simpa [stripL, List.reverse_append] using this.symm
  calc l = l.takeWhile isWsChar ++ dropWsL l := h1.symm
    _ = l.takeWhile isWsChar
        ++ (stripL l ++ ((dropWsL l).reverse.takeWhile isWsChar).reverse) := by
        rw [← h3]
    _ = l.takeWhile isWsChar ++ stripL l
        ++ ((dropWsL l).reverse.takeWhile isWsChar).reverse := by
        simp [List.append_assoc]

theorem hasSubL_of_strip {n l : List Char}
    (h : hasSubL n (stripL l) = true) : hasSubL n l = true := by
  obtain ⟨p, t, hl⟩ := stripL_decomp l
  rw [hl, List.append_assoc]
  exact hasSubL_append_right p (hasSubL_append_left t h)

theorem mem_of_mem_stripL {c : Char} {l : List Char}
    (h : c ∈ stripL l) : c ∈ l := by
  obtain ⟨p, t, hl⟩ := stripL_decomp l
  rw [hl]
  simp only [List.mem_append]
  exact Or.inl (Or.inr h)

/-! ### Character-class facts -/

theorem lowerChar_fixed_of_alnum {c : Char} (h : isAlnumLower c = true) :
    lowerChar c = c := by
  simp only [isAlnumLower, Bool.or_eq_true, Bool.and_eq_true,
    decide_eq_true_eq] at h
  unfold lowerChar
  rcases h with ⟨h1, h2⟩ | ⟨h1, h2⟩ <;> rw [if_neg (by omega)]

theorem wordCharB_of_alnum {c : Char} (h : isAlnumLower c = true) :
    wordCharB c = true := by
  simp only [isAlnumLower, Bool.or_eq_true, Bool.and_eq_true,
    decide_eq_true_eq] at h
  simp only [wordCharB, Bool.or_eq_true, Bool.and_eq_true, decide_eq_true_eq]
  rcases h with ⟨h1, h2⟩ | ⟨h1, h2⟩
  · exact Or.inl (Or.inl (Or.inr ⟨h1, h2⟩))
  · exact Or.inl (Or.inr ⟨h1, h2⟩)

theorem isWsChar_false_of_alnum {c : Char} (h : isAlnumLower c = true) :
    isWsChar c = false := by
  simp only [isAlnumLower, Bool.or_eq_true, Bool.and_eq_true,
    decide_eq_true_eq] at h
  simp only [isWsChar, Bool.or_eq_false_iff, beq_eq_false_iff_ne, ne_eq]
  omega

theorem mapIdOn {f : Char → Char} :
    ∀ {l : List Char}, (∀ c ∈ l, f c = c) → l.map f = l := by
  intro l
  induction l with
  | nil => intro _; rfl
  | cons c cs ih =>
    intro h
    simp only [List.map_cons, h c (List.mem_cons_self c cs),
      ih fun x hx => h x (List.mem_cons_of_mem c hx)]

theorem dropWsL_eq_self {l : List Char} (h : ∀ c ∈ l, isWsChar c = false) :
    dropWsL l = l := by
  cases l with
  | nil => rfl
  | cons c cs =>
    simp only [dropWsL, List.dropWhile_cons,
      h c (List.mem_cons_self c cs), Bool.false_eq_true, if_false]

theorem stripL_eq_self {l : List Char} (h : ∀ c ∈ l, isWsChar c = false) :
    stripL l = l := by
  have h1 : dropWsL l = l := dropWsL_eq_self h
  have h2 : dropWsL l.reverse = l.reverse :=
    dropWsL_eq_self fun c hc => h c (List.mem_reverse.mp hc)
  simp [stripL, h1, h2]

/-! ### The banned-word scan fixes alphanumeric non-banned strings -/

theorem matchWordCI_eq : ∀ {w text rest : List Char},
    (∀ c ∈ text, lowerChar c = c) → matchWordCI w text = some rest →
    text = w ++ rest := by
  intro w
  induction w with
  | nil =>
    intro text rest _ hm
    simp only [matchWordCI, Option.some.injEq] at hm
    simp [hm]
  | cons a as ih =>
    intro text rest hlf hm
    cases text with
    | nil => simp [matchWordCI] at hm
    | cons c cs =>
      simp only [matchWordCI] at hm
      by_cases hc : lowerChar c == a
      · rw [if_pos hc] at hm
        have hfix : lowerChar c = c := hlf c (List.mem_cons_self c cs)
        have hca : c = a := by rw [hfix] at hc; exact eq_of_beq hc
        have := ih (fun x hx => hlf x (List.mem_cons_of_mem c hx)) hm
        simp [hca, this]
      · rw [if_neg hc] at hm
        exact absurd hm (by simp)

theorem tryBanned_none {r : List Char}
    (hlf : ∀ c ∈ r, lowerChar c = c) (hw : ∀ c ∈ r, wordCharB c = true) :
    ∀ ws : List (List Char), (∀ w ∈ ws, r ≠ w) → tryBanned ws r = none := by
  intro ws
  induction ws with
  | nil => intro _; rfl
  | cons w ws ih =>
    intro hne
    have hrec := ih fun x hx => hne x (List.mem_cons_of_mem w hx)
    cases hm : matchWordCI w r with
    | none => simp [tryBanned, hm, hrec]
    | some rest =>
      have hr : r = w ++ rest := matchWordCI_eq hlf hm
      cases rest with
      | nil =>
        exact absurd (by simpa using hr) (hne w (List.mem_cons_self w ws))
      | cons c cs =>
        have hc : c ∈ r := by
          rw [hr]; exact List.mem_append_right w (List.mem_cons_self c cs)
        simp [tryBanned, hm, headNotWord, hw c hc, hrec]

theorem removeBannedFuel_wordChars :
    ∀ {l : List Char} {n : Nat}, (∀ c ∈ l, wordCharB c = true) →
    l.length ≤ n → removeBannedFuel n true l = l := by
  intro l
  induction l with
  | nil => intro n _ _; cases n <;> rfl
  | cons c cs ih =>
    intro n h hn
    cases n with
    | zero => simp at hn
    | succ m =>
      simp only [removeBannedFuel, if_pos]
      rw [h c (List.mem_cons_self c cs),
        ih (fun x hx => h x (List.mem_cons_of_mem c hx)) (by simpa using hn)]

theorem removeBannedL_eq_self {r : List Char}
    (hlf : ∀ c ∈ r, lowerChar c = c) (hw : ∀ c ∈ r, wordCharB c = true)
    (hb : ∀ w ∈ bannedWordsL, r ≠ w) : removeBannedL r = r := by
  cases r with
  | nil => rfl
  | cons c cs =>
    have hnone : tryBanned bannedWordsL (c :: cs) = none :=
      tryBanned_none hlf hw bannedWordsL hb
    simp only [removeBannedL, List.length_cons, removeBannedFuel,
      Bool.false_eq_true, if_false, hnone]
    rw [hw c (List.mem_cons_self c cs),
      removeBannedFuel_wordChars (fun x hx => hw x (List.mem_cons_of_mem c hx))
        (Nat.le_refl _)]

theorem normalize_name_chars (s : String) :
    ∀ c ∈ (normalize_name s).data, isAlnumLower c = true := by
  intro c hc
  have hc2 : c ∈ filterAlnum (removeBannedL (lowerL s.data)) :=
    mem_of_mem_stripL hc
  exact (List.mem_filter.mp hc2).2

/-- Any string all of whose characters are lowercase ASCII alphanumerics, and
which is not literally one of the banned marketing tokens, is a fixed point of
`normalize_name`. -/
theorem normalize_name_fixed {r : String}
    (halnum : ∀ c ∈ r.data, isAlnumLower c = true)
    (hb : r ∉ (["vevo", "topic", "official", "music", "channel"] : List String)) :
    normalize_name r = r := by
  have hlf : ∀ c ∈ r.data, lowerChar c = c :=
    fun c hc => lowerChar_fixed_of_alnum (halnum c hc)
  have hlower : lowerL r.data = r.data := mapIdOn hlf
  have hbl : ∀ w ∈ bannedWordsL, r.data ≠ w := by
    intro w hw hcontra
    have : r = (⟨w⟩ : String) := String.ext hcontra
    simp only [bannedWordsL, List.mem_cons, List.not_mem_nil, or_false] at hw
    rcases hw with rfl | rfl | rfl | rfl | rfl <;> subst this <;> simp at hb
  have hrem : removeBannedL r.data = r.data :=
    removeBannedL_eq_self hlf
      (fun c hc => wordCharB_of_alnum (halnum c hc)) hbl
  have hfil : filterAlnum r.data = r.data :=
    List.filter_eq_self.mpr halnum
  have hstrip : stripL r.data = r.data :=
    stripL_eq_self fun c hc => isWsChar_false_of_alnum (halnum c hc)
  cases r
  simp only [normalize_name] at hlower hrem hfil hstrip ⊢
  rw [hlower, hrem, hfil, hstrip]

/-- C10 counterexample.  The claim "normalize_name is idempotent" is false:
`normalize_name "mu sic" = "music"` (the space is deleted by the `[^a-z0-9]`
filter after the word-boundary scan ran on `"mu sic"`, where `music` does not
occur as a word), but normalizing `"music"` again deletes it entirely.
`normalize_artist_name` of `youtube_downloader.py` fails on the same input. -/
theorem normalize_name_not_idempotent :
    normalize_name "mu sic" = "music" ∧
    normalize_name (normalize_name "mu sic") = "" ∧
    normalize_artist_name "mu sic" = "music" ∧
    normalize_artist_name (normalize_artist_name "mu sic") = "" ∧
    ("music" : String) ≠ "" := by
  refine ⟨by decide, by decide, by decide, by decide, by decide⟩

/-- C10, amended: `normalize_name` is idempotent on every input whose
normal form is not literally one of the five banned marketing tokens
(`vevo`, `topic`, `official`, `music`, `channel`); on an input whose normal
form is such a token, a second normalization erases it. -/
theorem normalize_name_idempotent_unless_banned (s : String)
    (h : normalize_name s ∉
      (["vevo", "topic", "official", "music", "channel"] : List String)) :
    normalize_name (normalize_name s) = normalize_name s :=
  normalize_name_fixed (normalize_name_chars s) h

/-- Witness for the amended C10 theorem at a concrete input. -/
theorem normalize_name_idempotent_unless_banned_witness :
    normalize_name "Daft Punk" ∉
      (["vevo", "topic", "official", "music", "channel"] : List String) ∧
    normalize_name (normalize_name "Daft Punk") = normalize_name "Daft Punk" :=
  ⟨by decide, normalize_name_idempotent_unless_banned "Daft Punk" (by decide)⟩

/-! ### C4: disqualified candidates are never accepted -/

theorem scanEntries_inv (name artist : String) :
    ∀ (es : List SearchEntry) (acc : Option String × Int) (u : String),
    (scanEntries name artist acc es).1 = some u →
    acc.1 = some u ∨
      ∃ e ∈ es, e.webpage_url = u ∧ bannedHit e = false := by
  intro es
  induction es with
  | nil => intro acc u h; exact Or.inl h
  | cons e es ih =>
    intro acc u h
    by_cases hurl : e.webpage_url = ""
    · rw [scanEntries, if_pos hurl] at h
      rcases ih acc u h with h1 | ⟨e2, he2, hp⟩
      · exact Or.inl h1
      · exact Or.inr ⟨e2, List.mem_cons_of_mem e he2, hp⟩
    · by_cases hban : bannedHit e = true
      · rw [scanEntries, if_neg hurl, if_pos hban] at h
        rcases ih acc u h with h1 | ⟨e2, he2, hp⟩
        · exact Or.inl h1
        · exact Or.inr ⟨e2, List.mem_cons_of_mem e he2, hp⟩
      · rw [scanEntries, if_neg hurl, if_neg hban] at h
        by_cases hsc : acc.2 < entryScore name artist e
        · rw [if_pos hsc] at h
          rcases ih _ u h with h1 | ⟨e2, he2, hp⟩
          · have hurl2 : e.webpage_url = u := by simpa using h1
            exact Or.inr ⟨e, List.mem_cons_self e es, hurl2, by simpa using hban⟩
          · exact Or.inr ⟨e2, List.mem_cons_of_mem e he2, hp⟩
        · rw [if_neg hsc] at h
          rcases ih acc u h with h1 | ⟨e2, he2, hp⟩
          · exact Or.inl h1
          · exact Or.inr ⟨e2, List.mem_cons_of_mem e he2, hp⟩

theorem searchLoop_inv (name artist : String)
    (backend : String → List SearchEntry) :
    ∀ (qs : List String) (acc : Option String × Int) (u : String),
    (searchLoop name artist backend acc qs).1 = some u →
    acc.1 = some u ∨
      ∃ q, ∃ e ∈ backend q, e.webpage_url = u ∧ bannedHit e = false := by
  intro qs
  induction qs with
  | nil => intro acc u h; exact Or.inl h
  | cons q qs ih =>
    intro acc u h
    have hstep : searchLoop name artist backend acc (q :: qs)
        = match (scanEntries name artist acc (backend q)).1 with
          | some v => (some v, (scanEntries name artist acc (backend q)).2)
          | none =>
            searchLoop name artist backend
              (scanEntries name artist acc (backend q)) qs := rfl
    rw [hstep] at h
    cases hacc2 : (scanEntries name artist acc (backend q)).1 with
    | some v =>
      rw [hacc2] at h
      simp only [Option.some.injEq] at h
      rw [h] at hacc2
      rcases scanEntries_inv name artist (backend q) acc u hacc2 with
        h1 | ⟨e, he, hp⟩
      · exact Or.inl h1
      · exact Or.inr ⟨q, e, he, hp⟩
    | none =>
      rw [hacc2] at h
      simp only at h
      rcases ih _ u h with h1 | hex
      · rw [hacc2] at h1; cases h1
      · exact Or.inr hex

/-- C4: the resolver never accepts a candidate whose (lowered) title or
description contains a disqualifying phrase ("music video", "official video"):
any accepted URL belongs to a candidate free of those phrases, and when every
candidate of every query carries such a phrase the resolution returns `none`
(`NoMatchFound`). -/
theorem search_youtube_for_song_rejects_disqualified
    (name artist chan : String) (backend : String → List SearchEntry) :
    (∀ u, (search_youtube_for_song name artist chan backend).1 = some u →
      ∃ q, ∃ e ∈ backend q, e.webpage_url = u ∧ bannedHit e = false)
    ∧ ((∀ q, ∀ e ∈ backend q, bannedHit e = true) →
      (search_youtube_for_song name artist chan backend).1 = none) := by
  constructor
  · intro u hu
    by_cases hn : name = ""
    · simp only [search_youtube_for_song, if_pos hn] at hu
      cases hu
    · simp only [search_youtube_for_song, if_neg hn] at hu
      rcases searchLoop_inv name artist backend _ _ u hu with h1 | hex
      · cases h1
      · exact hex
  · intro hban
    cases hres : (search_youtube_for_song name artist chan backend).1 with
    | none => rfl
    | some u =>
      by_cases hn : name = ""
      · simp only [search_youtube_for_song, if_pos hn] at hres
        cases hres
      · simp only [search_youtube_for_song, if_neg hn] at hres
        rcases searchLoop_inv name artist backend _ _ u hres with h1 | ⟨q, e, he, _, hclean⟩
        · cases h1
        · rw [hban q e he] at hclean
          cases hclean

/-- Witness for C4: the spec's scenario — the only candidate is titled
"Yellow - Official Music Video", so resolution returns `none`. -/
theorem search_youtube_for_song_rejects_disqualified_witness :
    (search_youtube_for_song "yellow" "coldplay" ""
      (fun _ => [⟨"Yellow - Official Music Video", "", "ColdplayVEVO", "u1", "i1"⟩])).1
      = none := by
  apply (search_youtube_for_song_rejects_disqualified "yellow" "coldplay" ""
    (fun _ => [⟨"Yellow - Official Music Video", "", "ColdplayVEVO", "u1", "i1"⟩])).2
  intro q e he
  simp only [List.mem_singleton] at he
  subst he
  decide

/-- C1 counterexample.  A single candidate whose combined text contains no
token of the track title ("yellow" does not occur in "zzz") is nevertheless
accepted by `search_youtube_for_song`: `best_score` starts at `-1`, so a
candidate scoring `0` becomes `best_url`.  The claim requires `none` here. -/
theorem search_youtube_for_song_accepts_tokenless_candidate :
    inStr "yellow" (combinedText ⟨"zzz", "", "", "u1", "i1"⟩) = false
    ∧ pyTokens (pyLower (pyStrip "yellow")) = ["yellow"]
    ∧ (search_youtube_for_song "yellow" "coldplay" ""
        (fun _ => [⟨"zzz", "", "", "u1", "i1"⟩])).1 = some "u1" := by
  refine ⟨by decide, by decide, by decide⟩

theorem inStr_combined_of_title {w : String} {e : SearchEntry}
    (h : inStr w (normalize_text e.title) = true) :
    inStr w (combinedText e) = true := by
  have h1 : hasSubL w.data (lowerL e.title.data) = true :=
    hasSubL_of_strip (by simpa [inStr, normalize_text, pyStrip, pyLower] using h)
  have h2 : (combinedText e).data
      = lowerL e.title.data
        ++ (" " ++ pyLower e.description ++ " " ++ pyLower e.uploader).data := by
    simp [combinedText, pyLower, String.data_append, List.append_assoc]
  simp only [inStr, h2]
  exact hasSubL_append_left _ h1

theorem sbScan_none (tokens : List String) :
    ∀ es : List SearchEntry,
    (∀ e ∈ es, ∃ w ∈ tokens, inStr w (normalize_text e.title) = false) →
    sbScan tokens es = none := by
  intro es
  induction es with
  | nil => intro _; rfl
  | cons e es ih =>
    intro h
    have hrec := ih fun x hx => h x (List.mem_cons_of_mem e hx)
    obtain ⟨w, hw, hfalse⟩ := h e (List.mem_cons_self e es)
    have hall : (tokens.all fun w => inStr w (normalize_text e.title)) = false := by
      rcases Bool.eq_false_or_eq_true
        (tokens.all fun w => inStr w (normalize_text e.title)) with ht | hf
      · have := List.all_eq_true.mp ht w hw
        rw [hfalse] at this
        cases this
      · exact hf
    rw [sbScan]
    split
    · exact hrec
    · rw [hall]
      simpa using hrec

theorem sbLoop_none (tokens : List String) (chan : String)
    (backend : String → List SearchEntry)
    (h : ∀ q, ∀ e ∈ backend q, ∃ w ∈ tokens,
      inStr w (normalize_text e.title) = false) :
    ∀ qs : List String, sbLoop tokens chan backend qs = none := by
  intro qs
  induction qs with
  | nil => rfl
  | cons q qs ih =>
    rw [sbLoop, sbScan_none tokens _ (fun e he => h _ e he)]
    exact ih

/-- C1, amended: the all-title-tokens acceptance bar exists only in
`search_best_youtube` (`youtube_downloader.py`): when, for every candidate of
every query, some whitespace token of the (stripped, lowered) track title is
absent from the candidate's combined title+description+uploader text, it
returns `none`.  `search_youtube_for_song` (`youtube_searcher.py`) has no
such guarantee: it accepts any candidate free of disqualifying phrases, since
every score exceeds the initial `-1` bar
(see the C1 counterexample above). -/
theorem search_best_youtube_none_of_missing_tokens
    (track : SbTrack) (chan : String) (backend : String → List SearchEntry)
    (h : ∀ q, ∀ e ∈ backend q, ∃ w ∈ pyTokens (pyLower (pyStrip track.name)),
      inStr w (combinedText e) = false) :
    search_best_youtube track chan backend = none := by
  have h2 : ∀ q, ∀ e ∈ backend q, ∃ w ∈ pyTokens (pyLower (pyStrip track.name)),
      inStr w (normalize_text e.title) = false := by
    intro q e he
    obtain ⟨w, hw, hfalse⟩ := h q e he
    refine ⟨w, hw, ?_⟩
    rcases Bool.eq_false_or_eq_true (inStr w (normalize_text e.title)) with ht | hf
    · rw [inStr_combined_of_title ht] at hfalse
      cases hfalse
    · exact hf
  unfold search_best_youtube
  by_cases hn : pyStrip track.name = ""
  · rw [if_pos hn]
  · rw [if_neg hn]
    exact sbLoop_none _ chan backend h2 _

/-- Witness for the amended C1 theorem at a concrete input. -/
theorem search_best_youtube_none_of_missing_tokens_witness :
    search_best_youtube ⟨"yellow", "coldplay"⟩ ""
      (fun _ => [⟨"zzz", "", "", "u1", "i1"⟩]) = none := by
  apply search_best_youtube_none_of_missing_tokens ⟨"yellow", "coldplay"⟩ ""
    (fun _ => [⟨"zzz", "", "", "u1", "i1"⟩])
  intro q e he
  simp only [List.mem_singleton] at he
  subst he
  exact ⟨"yellow", by decide, by decide⟩

theorem trimSpan_fst (env : TrimEnv) (path : String) (content : List Nat)
    (audio : Nat) (r0 : Nat × Nat) (rs : List (Nat × Nat)) :
    (trimSpan env path content audio r0 rs).1 = path := by
  unfold trimSpan
  split
  · rfl
  · split <;> rfl

theorem trimSpanInPlace_fst (env : TrimEnv) (path : String) (audio : Nat)
    (r0 : Nat × Nat) (rs : List (Nat × Nat)) :
    (trimSpanInPlace env path audio r0 rs).1 = path := by
  unfold trimSpanInPlace
  split <;> rfl

theorem trim_eq_of_ranges {env : TrimEnv} {path content audio r0 rs}
    (hdec : env.decode content = some audio)
    (hdet : env.detect audio = r0 :: rs) :
    trim_silence_m4a env path content = trimSpan env path content audio r0 rs := by
  unfold trim_silence_m4a
  rw [hdec]
  show (match env.detect audio with
    | [] => (path, content)
    | r0 :: rs => trimSpan env path content audio r0 rs)
    = trimSpan env path content audio r0 rs
  rw [hdet]

theorem trim_eq_of_detect_nil {env : TrimEnv} {path content audio}
    (hdec : env.decode content = some audio)
    (hdet : env.detect audio = []) :
    trim_silence_m4a env path content = (path, content) := by
  unfold trim_silence_m4a
  rw [hdec]
  show (match env.detect audio with
    | [] => (path, content)
    | r0 :: rs => trimSpan env path content audio r0 rs) = (path, content)
  rw [hdet]

theorem trim_inplace_eq_of_ranges {env : TrimEnv} {path content audio r0 rs}
    (hdec : env.decode content = some audio)
    (hdet : env.detect audio = r0 :: rs) :
    trim_silence_m4a_inplace env path content
      = trimSpanInPlace env path audio r0 rs := by
  unfold trim_silence_m4a_inplace
  rw [hdec]
  show (match env.detect audio with
    | [] => (path, content)
    | r0 :: rs => trimSpanInPlace env path audio r0 rs)
    = trimSpanInPlace env path audio r0 rs
  rw [hdet]

theorem trim_inplace_eq_of_detect_nil {env : TrimEnv} {path content audio}
    (hdec : env.decode content = some audio)
    (hdet : env.detect audio = []) :
    trim_silence_m4a_inplace env path content = (path, content) := by
  unfold trim_silence_m4a_inplace
  rw [hdec]
  show (match env.detect audio with
    | [] => (path, content)
    | r0 :: rs => trimSpanInPlace env path audio r0 rs) = (path, content)
  rw [hdet]

/-- C5 counterexample.  An asset whose detected nonsilent region spans the
whole 1000 ms clip (no leading or trailing silence) is still re-encoded:
the code has no "region meaningfully shorter than the clip" test, only the
500 ms minimum-span test, so the bytes change from `[7]` to the encoder's
output `[9]`.  The claim requires the bytes to be unchanged. -/
theorem trim_silence_m4a_reencodes_whole_clip :
    (TrimEnv.detect
      { decode := fun _ => some 0
        detect := fun _ => [(0, 1000)]
        audioLen := fun _ => 1000
        slice := fun _ _ _ => 1
        encode := fun _ => some [9] } 0
      = [(0, TrimEnv.audioLen
          { decode := fun _ => some 0
            detect := fun _ => [(0, 1000)]
            audioLen := fun _ => 1000
            slice := fun _ _ _ => 1
            encode := fun _ => some [9] } 0)])
    ∧ trim_silence_m4a
      { decode := fun _ => some 0
        detect := fun _ => [(0, 1000)]
        audioLen := fun _ => 1000
        slice := fun _ _ _ => 1
        encode := fun _ => some [9] } "p.m4a" [7] = ("p.m4a", [9])
    ∧ ([9] : List Nat) ≠ [7] := by
  refine ⟨rfl, by decide, by decide⟩

/-- C5, amended: `trim_silence_m4a` (`youtube_dl.py`) always returns the same
path; when the detected nonsilent region spans the whole clip the bytes are
left unchanged only if the clip is shorter than 500 ms — otherwise the file
is re-encoded in place (its new content is the encoder's output, or the
original on encoder failure). -/
theorem trim_silence_m4a_whole_clip (env : TrimEnv) (path : String)
    (content : List Nat) (audio : Nat)
    (hdec : env.decode content = some audio)
    (hdet : env.detect audio = [(0, env.audioLen audio)]) :
    (trim_silence_m4a env path content).1 = path
    ∧ (env.audioLen audio < 500 →
        (trim_silence_m4a env path content).2 = content)
    ∧ (500 ≤ env.audioLen audio →
        (trim_silence_m4a env path content).2
          = (env.encode (env.slice audio 0 (env.audioLen audio))).getD content) := by
  rw [trim_eq_of_ranges hdec hdet]
  have hspan : rangesEnd (0, env.audioLen audio) ([] : List (Nat × Nat))
      - rangesStart (0, env.audioLen audio) = env.audioLen audio := by
    simp [rangesEnd, rangesStart]
  refine ⟨trimSpan_fst env path content audio _ _, ?_, ?_⟩
  · intro hlt
    unfold trimSpan
    rw [hspan, if_pos hlt]
  · intro hge
    unfold trimSpan
    rw [hspan, if_neg (by omega)]
    have hargs : env.slice audio (rangesStart (0, env.audioLen audio))
        (rangesEnd (0, env.audioLen audio) ([] : List (Nat × Nat)))
        = env.slice audio 0 (env.audioLen audio) := by
      simp [rangesEnd, rangesStart]
    rw [hargs]
    cases env.encode (env.slice audio 0 (env.audioLen audio)) <;> rfl

/-- Witness for the amended C5 theorem at a concrete input. -/
theorem trim_silence_m4a_whole_clip_witness :
    (trim_silence_m4a
      { decode := fun _ => some 0
        detect := fun _ => [(0, 1000)]
        audioLen := fun _ => 1000
        slice := fun _ _ _ => 1
        encode := fun _ => some [9] } "p.m4a" [7]).2 = [9] := by
  have h := trim_silence_m4a_whole_clip
    { decode := fun _ => some 0
      detect := fun _ => [(0, 1000)]
      audioLen := fun _ => 1000
      slice := fun _ _ _ => 1
      encode := fun _ => some [9] } "p.m4a" [7] 0 rfl rfl
  rw [h.2.2 (by decide)]
  rfl

/-- C6 counterexample.  In the in-place variant (`youtube_downloader.py`),
when the export step raises (encoder failure), the exception is caught and
the path returned, but the original content `[7]` has been truncated to `[]`
by the export's `wb+` open — the "original file untouched" part of the claim
fails for that variant. -/
theorem trim_silence_m4a_inplace_truncates_on_failure :
    trim_silence_m4a_inplace
      { decode := fun _ => some 0
        detect := fun _ => [(0, 800)]
        audioLen := fun _ => 800
        slice := fun _ _ _ => 1
        encode := fun _ => none } "p.m4a" [7] = ("p.m4a", [])
    ∧ ([] : List Nat) ≠ [7] := by
  refine ⟨by decide, by decide⟩

/-- C6, amended: both trim variants catch every modelled internal failure and
return the original path, and the temp-file-swap variant (`youtube_dl.py`)
also leaves the content untouched when the decoder or the encoder raises;
the in-place variant (`youtube_downloader.py`) only guarantees the path
(a failing export can truncate the file, see the counterexample). -/
theorem trim_silence_m4a_failure_safe (env : TrimEnv) (path : String)
    (content : List Nat) :
    (trim_silence_m4a env path content).1 = path
    ∧ (trim_silence_m4a_inplace env path content).1 = path
    ∧ (env.decode content = none →
        (trim_silence_m4a env path content).2 = content
        ∧ (trim_silence_m4a_inplace env path content).2 = content)
    ∧ ((∀ x, env.encode x = none) →
        (trim_silence_m4a env path content).2 = content) := by
  refine ⟨?_, ?_, ?_, ?_⟩
  · cases hdec : env.decode content with
    | none => unfold trim_silence_m4a; rw [hdec]
    | some audio =>
      cases hdet : env.detect audio with
      | nil => rw [trim_eq_of_detect_nil hdec hdet]
      | cons r0 rs =>
        rw [trim_eq_of_ranges hdec hdet]
        exact trimSpan_fst env path content audio r0 rs
  · cases hdec : env.decode content with
    | none => unfold trim_silence_m4a_inplace; rw [hdec]
    | some audio =>
      cases hdet : env.detect audio with
      | nil => rw [trim_inplace_eq_of_detect_nil hdec hdet]
      | cons r0 rs =>
        rw [trim_inplace_eq_of_ranges hdec hdet]
        exact trimSpanInPlace_fst env path audio r0 rs
  · intro hdec
    unfold trim_silence_m4a trim_silence_m4a_inplace
    rw [hdec]
    exact ⟨rfl, rfl⟩
  · intro henc
    cases hdec : env.decode content with
    | none => unfold trim_silence_m4a; rw [hdec]
    | some audio =>
      cases hdet : env.detect audio with
      | nil => rw [trim_eq_of_detect_nil hdec hdet]
      | cons r0 rs =>
        rw [trim_eq_of_ranges hdec hdet]
        unfold trimSpan
        split
        · rfl
        · rw [henc]

/-- Witness for the amended C6 theorem at a concrete input. -/
theorem trim_silence_m4a_failure_safe_witness :
    (trim_silence_m4a
      { decode := fun _ => none
        detect := fun _ => []
        audioLen := fun _ => 0
        slice := fun _ _ _ => 0
        encode := fun _ => none } "p.m4a" [3, 4]).2 = [3, 4] := by
  exact ((trim_silence_m4a_failure_safe
    { decode := fun _ => none
      detect := fun _ => []
      audioLen := fun _ => 0
      slice := fun _ _ _ => 0
      encode := fun _ => none } "p.m4a" [3, 4]).2.2.1 rfl).1

/-- `get_or_create_track` never touches the `downloads` table. -/
theorem get_or_create_track_downloads (db : Db) (td : TrackData) :
    (get_or_create_track db td).2.downloads = db.downloads := by
  unfold get_or_create_track
  split <;> rfl

/-- C2 counterexample.  Starting from an empty database, calling
`record_download` twice with the same user and track leaves two rows in the
`downloads` table for that `(user, track)` pair, not one: the SQL is a plain
`INSERT` with no `IGNORE`/`ON DUPLICATE KEY` clause, so repeated calls are
not no-ops. -/
theorem record_download_duplicates :
    countDownloads
      (record_download
        (record_download ⟨[], [], [], 0⟩ 1 sampleTrack ⟨"yt1", none, none⟩
          "f.m4a" "c1" "sp1")
        1 sampleTrack ⟨"yt1", none, none⟩ "f.m4a" "c1" "sp1") 1 0 = 2
    ∧ (2 : Nat) ≠ 1 := by
  refine ⟨by decide, by decide⟩

/-- C2, amended: every call to `record_download` appends exactly one new row
to the `downloads` table for the `(user, resolved track)` pair — `n` calls
for the same pair leave `n` rows, not one.  (Only the catalog-track step,
`get_or_create_track`, is idempotent.) -/
theorem record_download_appends_one_row (db : Db) (uid : Nat)
    (track : CsvTrack) (info : YtInfo) (fp cs sid : String) :
    countDownloads (record_download db uid track info fp cs sid) uid
        (get_or_create_track db (trackDataOf track sid)).1
      = countDownloads db uid
          (get_or_create_track db (trackDataOf track sid)).1 + 1 := by
  unfold record_download countDownloads set_track_checksum
  simp [List.filter_append, get_or_create_track_downloads]

theorem get_set_artist_channel (rows : List ChannelRow) (a c : String)
    (t : Nat) : get_artist_channel (set_artist_channel rows a c t) a = c := by
  induction rows with
  | nil =>
    by_cases hc : c = ""
    · simp [set_artist_channel, get_artist_channel, List.find?, hc]
    · simp [set_artist_channel, get_artist_channel, List.find?, hc]
  | cons r rs ih =>
    by_cases hr : r.artist_name == a
    · by_cases hc : c = ""
      · simp [set_artist_channel, get_artist_channel, List.find?, hr, hc]
      · simp [set_artist_channel, get_artist_channel, List.find?, hr, hc]
    · simp only [set_artist_channel, hr, Bool.false_eq_true, if_false]
      simpa [get_artist_channel, List.find?, hr] using ih

theorem countKey_set_ne (rows : List ChannelRow) (a c : String) (t : Nat)
    (k : String) (hk : (a == k) = false) :
    countKey (set_artist_channel rows a c t) k = countKey rows k := by
  induction rows with
  | nil => simp [set_artist_channel, countKey, hk]
  | cons r rs ih =>
    by_cases hr : r.artist_name == a
    · have hrk : (r.artist_name == k) = false := by
        have := eq_of_beq hr
        subst this
        exact hk
      simp [set_artist_channel, countKey, hr, hrk, hk] at ih ⊢
    · by_cases hrk : r.artist_name == k
      · simp only [set_artist_channel, hr, Bool.false_eq_true, if_false]
        simp only [countKey, List.filter_cons, hrk, if_true] at ih ⊢
        simp only [List.length_cons]
        exact congrArg Nat.succ ih
      · simp only [set_artist_channel, hr, Bool.false_eq_true, if_false]
        simp only [countKey, List.filter_cons, hrk, Bool.false_eq_true,
          if_false] at ih ⊢
        exact ih

theorem countKey_set_eq_key (rows : List ChannelRow) (a c : String)
    (t : Nat) :
    countKey (set_artist_channel rows a c t) a
      = if countKey rows a = 0 then 1 else countKey rows a := by
  induction rows with
  | nil => simp [set_artist_channel, countKey]
  | cons r rs ih =>
    by_cases hr : r.artist_name == a
    · simp [set_artist_channel, countKey, hr, List.filter_cons]
    · simp only [set_artist_channel, hr, Bool.false_eq_true, if_false]
      simp only [countKey, List.filter_cons, hr, Bool.false_eq_true,
        if_false] at ih ⊢
      exact ih

theorem countKey_set_le_one (rows : List ChannelRow) (a c : String) (t : Nat)
    (k : String) (hinv : countKey rows k ≤ 1) :
    countKey (set_artist_channel rows a c t) k ≤ 1 := by
  by_cases hk : (a == k) = true
  · have ha : a = k := eq_of_beq hk
    subst ha
    rw [countKey_set_eq_key]
    split
    · omega
    · exact hinv
  · rw [countKey_set_ne rows a c t k (by simpa using hk)]
    exact hinv

/-- C7: last-writer-wins upsert semantics of the artist-channel cache.
Upserting `c1` then `c2` under the same key and looking the key up returns
`c2`, for every starting table; and an upsert preserves the at-most-one-row-
per-key invariant. -/
theorem artist_channel_last_writer_wins (rows : List ChannelRow)
    (a c1 c2 : String) (t1 t2 : Nat) :
    get_artist_channel
        (set_artist_channel (set_artist_channel rows a c1 t1) a c2 t2) a = c2
    ∧ (∀ k c t, countKey rows k ≤ 1 →
        countKey (set_artist_channel rows a c t) k ≤ 1) :=
  ⟨get_set_artist_channel _ a c2 t2,
   fun k c t hinv => countKey_set_le_one rows a c t k hinv⟩

/-- Witness for C7 at a concrete table. -/
theorem artist_channel_last_writer_wins_witness :
    get_artist_channel
      (set_artist_channel
        (set_artist_channel [⟨"adele", "u0", 0⟩] "coldplay" "u1" 1)
        "coldplay" "u2" 2) "coldplay" = "u2"
    ∧ countKey
        (set_artist_channel [⟨"adele", "u0", 0⟩] "coldplay" "u1" 1)
        "coldplay" ≤ 1 := by
  have h := artist_channel_last_writer_wins [⟨"adele", "u0", 0⟩]
    "coldplay" "u1" "u2" 1 2
  exact ⟨h.1, h.2 "coldplay" "u1" 1 (by decide)⟩

/-- C3 counterexample.  With a matching candidate and a `record_download`
that raises after the checksum step, `download_and_tag` still returns the
file path as the item's (successful) result — the exception is logged and
swallowed (lines 195-196), so the item is not marked failed. -/
theorem download_and_tag_success_despite_record_failure :
    download_and_tag sampleTrack "out" 1
      { search := fun _ =>
          .ok [⟨"yellow coldplay lyrics", "", "coldplay", "u1", "i1"⟩]
        download := fun _ => .ok ⟨"i1", none, none⟩
        checksum := fun _ => "c1"
        tagFails := false
        recordFails := true }
      ⟨[], [], [], 0⟩
    = .ok (some "out/yellow.m4a", ⟨[], [], [], 0⟩)
    ∧ (some "out/yellow.m4a" ≠ (none : Option String)) := by
  refine ⟨by rfl, by decide⟩

theorem dlScan_db_of_none {track name artists outputDir userId env db es db2}
    (h : dlScan track name artists outputDir userId env db es
      = .ok (none, db2)) : db2 = db := by
  induction es with
  | nil =>
    simp only [dlScan, Except.ok.injEq, Prod.mk.injEq] at h
    exact h.2.symm
  | cons e es ih =>
    rw [dlScan] at h
    split at h
    · exact ih h
    · split at h
      · split at h
        · cases h
        · simp only [Except.ok.injEq, Prod.mk.injEq] at h
          cases h.1
      · exact ih h

theorem dlScan_map_recordFails (track : CsvTrack)
    (name artists outputDir : String) (userId : Nat) (env : DlEnv) (db : Db)
    (b1 b2 : Bool) :
    ∀ es, resultPath (dlScan track name artists outputDir userId
        { env with recordFails := b1 } db es)
      = resultPath (dlScan track name artists outputDir userId
        { env with recordFails := b2 } db es) := by
  intro es
  induction es with
  | nil => rfl
  | cons e es ih =>
    rw [dlScan, dlScan]
    split
    · exact ih
    · split
      · cases env.download e.webpage_url with
        | error msg => rfl
        | ok info => rfl
      · exact ih

theorem dlLoop_cons_error (track : CsvTrack)
    (name artists outputDir : String) (userId : Nat) (env : DlEnv) (db : Db)
    (q : String) (qs : List String) (m : String)
    (hsq : env.search q = .error m) :
    dlLoop track name artists outputDir userId env db (q :: qs)
      = .error m := by
  rw [dlLoop, hsq]

theorem dlLoop_cons_ok (track : CsvTrack)
    (name artists outputDir : String) (userId : Nat) (env : DlEnv) (db : Db)
    (q : String) (qs : List String) (entries : List SearchEntry)
    (hsq : env.search q = .ok entries) :
    dlLoop track name artists outputDir userId env db (q :: qs)
      = match dlScan track name artists outputDir userId env db entries with
        | .error m => .error m
        | .ok (some p, db2) => .ok (some p, db2)
        | .ok (none, db2) =>
          dlLoop track name artists outputDir userId env db2 qs := by
  rw [dlLoop, hsq]

theorem dlLoop_map_recordFails (track : CsvTrack)
    (name artists outputDir : String) (userId : Nat) (env : DlEnv)
    (b1 b2 : Bool) :
    ∀ (qs : List String) (db : Db),
    resultPath (dlLoop track name artists outputDir userId
        { env with recordFails := b1 } db qs)
      = resultPath (dlLoop track name artists outputDir userId
        { env with recordFails := b2 } db qs) := by
  intro qs
  induction qs with
  | nil => intro db; rfl
  | cons q qs ih =>
    intro db
    cases hsq : env.search q with
    | error msg =>
      rw [dlLoop_cons_error track name artists outputDir userId
          { env with recordFails := b1 } db q qs msg hsq,
        dlLoop_cons_error track name artists outputDir userId
          { env with recordFails := b2 } db q qs msg hsq]
    | ok entries =>
      rw [dlLoop_cons_ok track name artists outputDir userId
          { env with recordFails := b1 } db q qs entries hsq,
        dlLoop_cons_ok track name artists outputDir userId
          { env with recordFails := b2 } db q qs entries hsq]
      have hmap := dlScan_map_recordFails track name artists outputDir
        userId env db b1 b2 entries
      cases h1 : dlScan track name artists outputDir userId
          { env with recordFails := b1 } db entries with
      | error m =>
        rw [h1] at hmap
        cases h2 : dlScan track name artists outputDir userId
            { env with recordFails := b2 } db entries with
        | error m2 =>
          rw [h2] at hmap
          have hm : m = m2 := by
            simpa [resultPath, Except.map] using hmap
          rw [hm]
        | ok p2 =>
          rw [h2] at hmap
          simp [resultPath, Except.map] at hmap
      | ok p1 =>
        rw [h1] at hmap
        cases h2 : dlScan track name artists outputDir userId
            { env with recordFails := b2 } db entries with
        | error m2 =>
          rw [h2] at hmap
          simp [resultPath, Except.map] at hmap
        | ok p2 =>
          rw [h2] at hmap
          obtain ⟨x1, y1⟩ := p1
          obtain ⟨x2, y2⟩ := p2
          have hx : x1 = x2 := by
            simpa [resultPath, Except.map] using hmap
          subst hx
          cases x1 with
          | some u => rfl
          | none =>
            rw [dlScan_db_of_none h1, dlScan_db_of_none h2]
            exact ih db

/-- C3, amended: whether `record_download` raises has no effect on
`download_and_tag`'s returned value — the exception is caught and the
function still reports the file path as the item's successful result (only
the database contents differ).  The pipeline therefore does NOT mark the
item failed on a persistence error. -/
theorem download_and_tag_ignores_record_failure (track : CsvTrack)
    (outputDir : String) (userId : Nat) (env : DlEnv) (db : Db) :
    resultPath (download_and_tag track outputDir userId
        { env with recordFails := true } db)
      = resultPath (download_and_tag track outputDir userId
        { env with recordFails := false } db) := by
  simp only [download_and_tag]
  by_cases h : pyStrip track.name = "" ∨ pyStrip track.artists = ""
  · rw [if_pos h, if_pos h]
  · rw [if_neg h, if_neg h]
    exact dlLoop_map_recordFails track (pyStrip track.name)
      (pyStrip track.artists) outputDir userId env true false _ db

theorem fymScan_no_artist_tokens (nameToks : List String) :
    ∀ es : List SearchEntry, fymScan nameToks [] es = none := by
  intro es
  induction es with
  | nil => rfl
  | cons e es ih =>
    rw [fymScan]
    simp only [List.any_nil, Bool.and_false, Bool.false_eq_true, if_false]
    exact ih

theorem fymLoop_no_artist_tokens (nameToks : List String)
    (backend : String → Except String (List SearchEntry)) :
    ∀ qs : List String, fymLoop nameToks [] backend qs = none := by
  intro qs
  induction qs with
  | nil => rfl
  | cons q qs ih =>
    rw [fymLoop]
    cases backend q with
    | error m => exact ih
    | ok entries =>
      show (match fymScan nameToks [] entries with
        | some u => some u
        | none => fymLoop nameToks [] backend qs) = none
      rw [fymScan_no_artist_tokens]
      exact ih

/-- C8 counterexample.  The same search backend offers a perfect candidate
for "yellow"; with the artist present `download_and_tag` (`youtube_dl.py`)
resolves and returns the path, but with an empty artist field the guard at
lines 105-107 skips the track and returns `None` without issuing a single
query — the claim requires a title-only fallback instead of a skip. -/
theorem download_and_tag_skips_artistless_track :
    resultPath (download_and_tag { sampleTrack with artists := "" } "out" 1
      { search := fun _ =>
          .ok [⟨"yellow coldplay lyrics", "", "coldplay", "u1", "i1"⟩]
        download := fun _ => .ok ⟨"i1", none, none⟩
        checksum := fun _ => "c1"
        tagFails := false
        recordFails := false }
      ⟨[], [], [], 0⟩) = .ok none
    ∧ resultPath (download_and_tag sampleTrack "out" 1
      { search := fun _ =>
          .ok [⟨"yellow coldplay lyrics", "", "coldplay", "u1", "i1"⟩]
        download := fun _ => .ok ⟨"i1", none, none⟩
        checksum := fun _ => "c1"
        tagFails := false
        recordFails := false }
      ⟨[], [], [], 0⟩) = .ok (some "out/yellow.m4a") := by
  refine ⟨by rfl, by rfl⟩

/-- C8, amended: a track with a non-empty title and an empty artist is
SKIPPED by the current `download_and_tag` (`youtube_dl.py` lines 105-107) —
it returns `None` without querying, for every backend and database.  Only
the backup variant (`find_youtube_match`) falls back to title-only queries
(`[f"{name} lyrics", f"{name}"]`) and completes without raising; there it
always returns `None` because, with no artist tokens, `artist_match` is
`False` for every candidate. -/
theorem artistless_track_resolution (track : CsvTrack) (outputDir : String)
    (userId : Nat) (env : DlEnv) (db : Db)
    (backend : String → Except String (List SearchEntry))
    (h : pyStrip track.artists = "") :
    download_and_tag track outputDir userId env db = .ok (none, db)
    ∧ find_youtube_match track backend = none := by
  constructor
  · simp only [download_and_tag]
    rw [if_pos (Or.inr h)]
  · simp only [find_youtube_match]
    by_cases hn : pyStrip track.name = ""
    · rw [if_pos hn]
    · rw [if_neg hn, h]
      have htok : artistTokens "" = [] := rfl
      rw [htok]
      exact fymLoop_no_artist_tokens _ backend _

/-- Witness for the amended C8 theorem at a concrete input. -/
theorem artistless_track_resolution_witness :
    download_and_tag { sampleTrack with artists := "" } "out" 1
      { search := fun _ => .ok []
        download := fun _ => .ok ⟨"i1", none, none⟩
        checksum := fun _ => "c1"
        tagFails := false
        recordFails := false }
      ⟨[], [], [], 0⟩ = .ok (none, ⟨[], [], [], 0⟩)
    ∧ find_youtube_match { sampleTrack with artists := "" }
        (fun _ => .ok []) = none := by
  exact artistless_track_resolution { sampleTrack with artists := "" }
    "out" 1
    { search := fun _ => .ok []
      download := fun _ => .ok ⟨"i1", none, none⟩
      checksum := fun _ => "c1"
      tagFails := false
      recordFails := false }
    ⟨[], [], [], 0⟩ (fun _ => .ok []) (by decide)

/-- C9 counterexample: the claim's report part is false.  `process_tracks`
returns only the list of downloaded paths, so two one-item batches whose
single items fail with different reasons ("FetchError" vs "NoMatchFound")
both return `[]` — no function of the return value can reconstruct the
failure reasons. -/
theorem process_tracks_returns_no_report : ¬ processTracksReturnsReport := by
  rintro ⟨rep, h⟩
  have e1 : rep [] = (0, [(sampleTrack, "FetchError")]) :=
    h [sampleTrack] (fun _ => .error "FetchError")
  have e2 : rep [] = (0, [(sampleTrack, "NoMatchFound")]) :=
    h [sampleTrack] (fun _ => .error "NoMatchFound")
  rw [e1] at e2
  have e4 := congrArg (fun p => p.2) e2
  simp at e4

theorem processGo_eq (run : CsvTrack → Except String (Option String)) :
    ∀ (ts : List CsvTrack) (acc : List String),
    processGo ts run acc
      = acc.reverse ++ ts.filterMap fun t =>
          match run t with
          | .ok (some p) => some p
          | _ => none := by
  intro ts
  induction ts with
  | nil => intro acc; simp [processGo]
  | cons t ts ih =>
    intro acc
    rw [processGo]
    cases hr : run t with
    | error m => simp [List.filterMap_cons, hr, ih acc]
    | ok o =>
      cases o with
      | none => simp [List.filterMap_cons, hr, ih acc]
      | some p =>
        simp [List.filterMap_cons, hr, ih (p :: acc)]

theorem length_filterMap_successes
    (run : CsvTrack → Except String (Option String)) :
    ∀ ts : List CsvTrack,
    (ts.filterMap fun t =>
        match run t with
        | .ok (some p) => some p
        | _ => none).length
      = succeededCount ts run := by
  intro ts
  induction ts with
  | nil => rfl
  | cons t ts ih =>
    unfold succeededCount at ih ⊢
    cases hr : run t with
    | error m => simpa [List.filterMap_cons, List.filter_cons, hr] using ih
    | ok o =>
      cases o with
      | none => simpa [List.filterMap_cons, List.filter_cons, hr] using ih
      | some p => simpa [List.filterMap_cons, List.filter_cons, hr] using ih

/-- C9, amended: `process_tracks` never propagates an item's failure (a
raising future is consumed by its `except` branch) and returns exactly the
paths of the successful items, in order — but only those: the failed items
and their reasons are logged, not returned, and the succeeded count is
recoverable only as the length of the result. -/
theorem process_tracks_returns_successes (ts : List CsvTrack)
    (run : CsvTrack → Except String (Option String)) :
    process_tracks ts run
      = (ts.filterMap fun t =>
          match run t with
          | .ok (some p) => some p
          | _ => none)
    ∧ (process_tracks ts run).length = succeededCount ts run := by
  have h1 : process_tracks ts run
      = ts.filterMap fun t =>
          match run t with
          | .ok (some p) => some p
          | _ => none := by
    rw [process_tracks, processGo_eq]
    simp
  exact ⟨h1, by rw [h1, length_filterMap_successes]⟩
